import Mathlib

/-!
# Verification of the 21-stones game environment, trainer and consumer

Shallow embedding of the repository sources:
  - `game_env.py`    (class StoneGameEnv: reset, step, opponent policy)
  - `train.py`       (linear_schedule, Q-learning training loop)
  - `game_engine.py` (GameEngine.handle_ai_move, the interactive consumer)

Conventions: the environment state is the single Python attribute
`stones_remaining`, modelled as an integer (Python ints are unbounded, and
the subtraction in `step` is ordinary integer subtraction).  Rewards are the
Python floats -10.0, -1.0, 0.0, +1.0; all are exactly representable, so they
are modelled as integers.  Each call of `np.random.randint(1, 4)` or
`random.randint(1, 3)` is modelled by an explicit parameter `r` holding the
drawn value; `random.random()` draws are rationals supplied by an oracle.
-/

namespace StoneGame

/-- From game_env.py, `self.initial_stones = 21`. -/
def initial_stones : ℤ := 21

/-- From game_env.py, `StoneGameEnv.reset`: ignores the previous state, sets
`stones_remaining = initial_stones` and returns the observation, which is the
new `stones_remaining`.  Result: (new state, observation). -/
def reset (_stones_remaining : ℤ) : ℤ × ℤ :=
  (initial_stones, initial_stones)

/-- The (observation, reward, terminated) triple returned by
`StoneGameEnv.step`, together with the post-step `stones_remaining`
attribute (which the code sets before returning; `observation` is read from
it). -/
structure StepResult where
  observation : ℤ
  reward : ℤ
  terminated : Bool
  stones_remaining : ℤ
deriving DecidableEq

/-- From game_env.py line 124: the agent move subtracts
`stones_to_take = action + 1` from `stones_remaining`. -/
def agent_move (s : ℤ) (action : ℕ) : ℤ :=
  s - ((action : ℤ) + 1)

/-- From game_env.py lines 138-145: the number of stones the scripted
opponent removes when `stones_remaining = s`, where `r` is the value
`np.random.randint(1, 4)` would return (a draw from {1, 2, 3}).  The code
computes `(s - 1) % 4`, replaces it by the random draw when it is zero, and
clamps the result with `min`. -/
def opponent_take (s r : ℤ) : ℤ :=
  let k := (s - 1) % 4
  let k2 := if k = 0 then r else k
  min k2 s

/-- From game_env.py, `StoneGameEnv.step` (lines 91-157), for a state with
`stones_remaining = s`, agent action `action` (0, 1 or 2 meaning take
`action + 1` stones) and opponent random draw `r`:
illegal moves zero the pile with reward -10; a move emptying the pile wins
with reward +1; otherwise the opponent moves and either wins (reward -1) or
the game continues (reward 0). -/
def step (s : ℤ) (action : ℕ) (r : ℤ) : StepResult :=
  let stones_to_take : ℤ := (action : ℤ) + 1
  if stones_to_take > s then
    { observation := 0, reward := -10, terminated := true, stones_remaining := 0 }
  else
    let s1 := agent_move s action
    if s1 = 0 then
      { observation := 0, reward := 1, terminated := true, stones_remaining := 0 }
    else
      let t := opponent_take s1 r
      let s2 := s1 - t
      if s2 = 0 then
        { observation := 0, reward := -1, terminated := true, stones_remaining := 0 }
      else
        { observation := s2, reward := 0, terminated := false, stones_remaining := s2 }

/-- From train.py lines 44-48:
`slope = (end_epsilon - start_epsilon) / duration`;
returns `max(end_epsilon, start_epsilon + slope * current_step)`.
Floats are modelled as rationals; `current_step` is the episode index, a
natural number. -/
def linear_schedule (start_epsilon end_epsilon : ℚ) (duration : ℚ)
    (current_step : ℕ) : ℚ :=
  let slope := (end_epsilon - start_epsilon) / duration
  max end_epsilon (start_epsilon + slope * (current_step : ℚ))

/-- `np.argmax` over a list of values: the index of the first occurrence of
the maximum (ties broken towards the lowest index). -/
def argmax_first : List ℚ → ℕ
  | [] => 0
  | [_] => 0
  | x :: y :: ys =>
    if x < (y :: ys).getD (argmax_first (y :: ys)) 0 then
      argmax_first (y :: ys) + 1
    else 0

/-- The Q-table `q_table[state, action]`, a dense array over states 0..21 and
actions 0..2, modelled as a total function. -/
def QTable : Type := ℤ → ℕ → ℚ

/-- From game_engine.py line 121:
`valid_actions = [a for a in range(self.env.action_space.n) if (a + 1) <= state]`
with `action_space.n = 3`. -/
def valid_actions (s : ℤ) : List ℕ :=
  (List.range 3).filter (fun a => decide ((a : ℤ) + 1 ≤ s))

/-- From game_engine.py, `GameEngine.handle_ai_move` (lines 116-148): the
number of stones the AI removes from a pile of `s`, given the loaded Q-table
(or `none` when no table was found) and the value `r` that
`random.randint(1, 3)` would return.  `none` as result models the early
return on line 126 when there is no valid action. -/
def handle_ai_move_take (q : Option QTable) (s : ℤ) (r : ℤ) : Option ℤ :=
  match q with
  | some qt =>
    if valid_actions s = [] then none
    else
      some (min
        ((((valid_actions s).getD
            (argmax_first ((valid_actions s).map (qt s))) 0 : ℕ) : ℤ) + 1) s)
  | none =>
    some (min (if s % 4 = 0 then r else s % 4) s)

/-- The command-line configuration of train.py that the training loop reads
(parse_args lines 12-42 performs only type conversion on these values; it
contains no range checks). -/
structure Args where
  total_episodes : ℤ
  learning_rate : ℚ
  gamma : ℚ
  start_epsilon : ℚ
  end_epsilon : ℚ
  exploration_fraction : ℚ

/-- The zero-filled table `np.zeros((22, 3))` of train.py line 88. -/
def q_init : QTable := fun _ _ => 0

/-- Assignment `q_table[state, action] = v` on the table. -/
def q_update (q : QTable) (s : ℤ) (a : ℕ) (v : ℚ) : QTable :=
  fun s2 a2 => if s2 = s ∧ a2 = a then v else q s2 a2

/-- `np.max(q_table[next_state, :])`: the maximum over the three actions. -/
def max_q (q : QTable) (s : ℤ) : ℚ :=
  max (q s 0) (max (q s 1) (q s 2))

/-- One bundle of random draws consumed by one iteration of the inner
training loop: `u` for `random.random()`, `sample` for
`env.action_space.sample()`, `opp` for the opponent draw inside `env.step`. -/
structure RandDraw where
  u : ℚ
  sample : ℕ
  opp : ℤ

/-- One iteration of the inner `while not done` loop of train.py
(lines 101-131): epsilon from the schedule, epsilon-greedy action choice,
environment step, Bellman update.  Returns (next state, updated table,
terminated flag). -/
def train_step (args : Args) (episode : ℕ) (d : RandDraw) (s : ℤ)
    (q : QTable) : ℤ × QTable × Bool :=
  let epsilon := linear_schedule args.start_epsilon args.end_epsilon
    (args.exploration_fraction * (args.total_episodes : ℚ)) episode
  let action := if d.u < epsilon then d.sample
    else argmax_first [q s 0, q s 1, q s 2]
  let res := step s action d.opp
  let old_q := q s action
  let max_next := max_q q res.observation
  let new_q := old_q + args.learning_rate *
    ((res.reward : ℚ) + args.gamma * max_next - old_q)
  (res.observation, q_update q s action new_q, res.terminated)

/-- The inner loop of one episode, driven by a stream of random draws; the
fuel bounds the number of iterations (an episode from 21 stones lasts at
most 21 steps, so fuel 22 is never exhausted). -/
def run_episode_aux (args : Args) (episode : ℕ) (rng : ℕ → RandDraw) :
    ℕ → ℕ → ℤ → QTable → QTable
  | 0, _, _, q => q
  | fuel + 1, i, s, q =>
    let r := train_step args episode (rng i) s q
    if r.2.2 then r.2.1 else run_episode_aux args episode rng fuel (i + 1) r.1 r.2.1

/-- One episode of train.py (lines 94-131): reset the environment, then run
the inner loop until termination. -/
def run_episode (args : Args) (episode : ℕ) (rng : ℕ → RandDraw)
    (q : QTable) : QTable :=
  run_episode_aux args episode rng 22 0 (reset 0).2 q

/-- The whole training loop of train.py:
`for episode in range(args.total_episodes)`, starting from the zero table.
`rng` supplies the random draws of episode `ep`, iteration `i`.
`range` of a non-positive count is empty, hence `Int.toNat`. -/
def train_q_table (args : Args) (rng : ℕ → ℕ → RandDraw) : QTable :=
  (List.range args.total_episodes.toNat).foldl
    (fun q ep => run_episode args ep (rng ep) q) q_init

/-- The main program of train.py after argument parsing: parse_args
(lines 12-42) performs no range validation of the configuration, and the
main body (lines 50-153) proceeds directly to the training loop, so the run
never fails with a configuration error; it always produces a table. -/
def train_main (args : Args) (rng : ℕ → ℕ → RandDraw) : Except String QTable :=
  Except.ok (train_q_table args rng)

/-! ## Helper lemmas -/

/-- `getD` at an index inside the list is the element there. -/
theorem getD_eq_get {α : Type} (l : List α) (i : ℕ) (d : α)
    (h : i < l.length) : l.getD i d = l[i] := by
  rw [List.getD_eq_getElem?_getD, List.getElem?_eq_getElem h]
  rfl

/-- The first-max index is inside the list. -/
theorem argmax_first_lt_length :
    ∀ l : List ℚ, l ≠ [] → argmax_first l < l.length
  | [], h => absurd rfl h
  | [_], _ => by simp [argmax_first]
  | _ :: y :: ys, _ => by
    have ih := argmax_first_lt_length (y :: ys) (by simp)
    simp only [argmax_first]
    split
    · simpa using Nat.succ_lt_succ ih
    · simp

/-- Every entry is at most the entry at the first-max index. -/
theorem getD_le_argmax_first :
    ∀ (l : List ℚ) (i : ℕ), i < l.length →
      l.getD i 0 ≤ l.getD (argmax_first l) 0
  | [], i, h => by simp at h
  | [x], i, h => by
    have hi : i = 0 := by simpa using h
    subst hi
    simp [argmax_first]
  | x :: y :: ys, i, h => by
    have ih := fun j hj => getD_le_argmax_first (y :: ys) j hj
    simp only [argmax_first]
    split
    next hlt =>
      rw [List.getD_cons_succ]
      cases i with
      | zero => rw [List.getD_cons_zero]; exact le_of_lt hlt
      | succ i2 =>
        rw [List.getD_cons_succ]
        exact ih i2 (by simpa using h)
    next hge =>
      push_neg at hge
      rw [List.getD_cons_zero]
      cases i with
      | zero => rw [List.getD_cons_zero]
      | succ i2 =>
        rw [List.getD_cons_succ]
        exact le_trans (ih i2 (by simpa using h)) hge

/-- Entries strictly before the first-max index are strictly below the
maximum: this is the first-occurrence tie-break of `np.argmax`. -/
theorem getD_lt_argmax_first :
    ∀ (l : List ℚ) (j : ℕ), j < argmax_first l →
      l.getD j 0 < l.getD (argmax_first l) 0
  | [], j, h => by simp [argmax_first] at h
  | [x], j, h => by simp [argmax_first] at h
  | x :: y :: ys, j, h => by
    have ih := fun j2 hj => getD_lt_argmax_first (y :: ys) j2 hj
    simp only [argmax_first] at h ⊢
    split at h
    next hlt =>
      rw [if_pos hlt, List.getD_cons_succ]
      cases j with
      | zero => rw [List.getD_cons_zero]; exact hlt
      | succ j2 =>
        rw [List.getD_cons_succ]
        exact ih j2 (Nat.lt_of_succ_lt_succ h)
    next hge => exact absurd h (Nat.not_lt_zero j)

/-- The legality filter of `handle_ai_move` keeps an initial segment of the
action range: `valid_actions s` is `range (min 3 s.toNat)`. -/
theorem valid_actions_eq_range (s : ℤ) :
    valid_actions s = List.range (min 3 s.toNat) := by
  rcases (by omega : s ≤ 0 ∨ s = 1 ∨ s = 2 ∨ 3 ≤ s) with h | h | h | h
  · unfold valid_actions
    rw [(by omega : min 3 s.toNat = 0),
      (by decide : List.range 3 = [0, 1, 2])]
    simp only [List.filter_cons, List.filter_nil, decide_eq_true_eq,
      Nat.cast_ofNat, Nat.cast_zero, Nat.cast_one, List.range_zero]
    rw [if_neg (by omega), if_neg (by omega), if_neg (by omega)]
  · subst h; decide
  · subst h; decide
  · unfold valid_actions
    rw [(by omega : min 3 s.toNat = 3),
      (by decide : List.range 3 = [0, 1, 2])]
    simp only [List.filter_cons, List.filter_nil, decide_eq_true_eq,
      Nat.cast_ofNat, Nat.cast_zero, Nat.cast_one]
    rw [if_pos (by omega), if_pos (by omega), if_pos (by omega)]

/-! ## Theorems for the claims -/

/-- C1: the opponent policy of game_env.py evaluated at the failing inputs.
At `stones_remaining = 9` (and 9 mod 4 = 1, so the claim says: take exactly
1, leaving 8) the code computes `(9 - 1) % 4 = 0` and therefore takes the
random draw, here 2; reached through `step` from state 10 with action 0 the
observation is 7, not 8.  At `stones_remaining = 8` (and 8 mod 4 = 0, so the
claim says: take a random draw) the code deterministically takes 3 whatever
the draw. -/
theorem claim1_opponent_code_behavior :
    opponent_take 9 2 = 2 ∧ (9 : ℤ) % 4 = 1 ∧
    (step 10 0 2).observation = 7 ∧
    opponent_take 8 1 = 3 ∧ opponent_take 8 2 = 3 ∧ opponent_take 8 3 = 3 ∧
    (8 : ℤ) % 4 = 0 := by
  decide

/-- C2: for every state `s`, action with `action + 1 > s` and opponent draw,
`step` zeroes the pile and returns observation 0, reward -10, terminated
true; the action is never clamped to a smaller legal take. -/
theorem claim2_illegal_move (s : ℤ) (a : ℕ) (r : ℤ) (h : (a : ℤ) + 1 > s) :
    step s a r =
      { observation := 0, reward := -10, terminated := true,
        stones_remaining := 0 } := by
  simp [step, h]

/-- C2 witness: the concrete illegal move (2 stones left, take 3). -/
theorem claim2_witness :
    ((2 : ℤ) + 1 > 2) ∧
    step 2 2 1 =
      { observation := 0, reward := -10, terminated := true,
        stones_remaining := 0 } :=
  ⟨by decide, claim2_illegal_move 2 2 1 (by decide)⟩

/-- C3: a legal agent move that empties the pile returns observation 0,
reward +1, terminated true, and the opponent never moves (the result does
not depend on the opponent draw `r`). -/
theorem claim3_agent_win (s : ℤ) (a : ℕ) (r : ℤ) (hleg : (a : ℤ) + 1 ≤ s)
    (hwin : agent_move s a = 0) :
    step s a r =
      { observation := 0, reward := 1, terminated := true,
        stones_remaining := 0 } := by
  simp [step, hwin, not_lt.mpr hleg]

/-- C3 witness: 3 stones left, take 3. -/
theorem claim3_witness :
    ((2 : ℤ) + 1 ≤ 3) ∧ agent_move 3 2 = 0 ∧
    step 3 2 1 =
      { observation := 0, reward := 1, terminated := true,
        stones_remaining := 0 } :=
  ⟨by decide, by decide, claim3_agent_win 3 2 1 (by decide) (by decide)⟩

/-- C6: for a positive pile and a legal action from the action space
Discrete(3), the agent subtraction alone strictly decreases the pile, by at
least 1 and at most 3. -/
theorem claim6_agent_decrease (s : ℤ) (a : ℕ) (hpos : 0 < s) (ha : a < 3)
    (hleg : (a : ℤ) + 1 ≤ s) :
    agent_move s a < s ∧ 1 ≤ s - agent_move s a ∧ s - agent_move s a ≤ 3 := by
  unfold agent_move
  omega

/-- C6 witness: 5 stones, take 2. -/
theorem claim6_witness :
    (0 : ℤ) < 5 ∧ 1 < 3 ∧ ((1 : ℤ) + 1 ≤ 5) ∧
    (agent_move 5 1 < 5 ∧ 1 ≤ 5 - agent_move 5 1 ∧ 5 - agent_move 5 1 ≤ 3) :=
  ⟨by decide, by decide, by decide,
    claim6_agent_decrease 5 1 (by decide) (by decide) (by decide)⟩

/-- C4: when the legal agent move leaves a positive pile, the opponent
moves (removing `opponent_take` of the remaining stones); if that empties
the pile the step returns reward -1 and terminated true, otherwise reward 0
and terminated false with the resulting pile as observation. -/
theorem claim4_opponent_outcome (s : ℤ) (a : ℕ) (r : ℤ)
    (hleg : (a : ℤ) + 1 ≤ s) (hpos : 0 < agent_move s a) :
    (agent_move s a - opponent_take (agent_move s a) r = 0 →
      step s a r =
        { observation := 0, reward := -1, terminated := true,
          stones_remaining := 0 }) ∧
    (agent_move s a - opponent_take (agent_move s a) r ≠ 0 →
      step s a r =
        { observation := agent_move s a - opponent_take (agent_move s a) r,
          reward := 0, terminated := false,
          stones_remaining :=
            agent_move s a - opponent_take (agent_move s a) r }) := by
  constructor <;> intro h2 <;>
    simp [step, not_lt.mpr hleg, ne_of_gt hpos, h2]

/-- C4 witness: from 10 stones, take 1; the opponent draws 1 at pile 9 and
the game continues with observation 8... evaluated concretely. -/
theorem claim4_witness :
    ((0 : ℤ) + 1 ≤ 10) ∧ (0 : ℤ) < agent_move 10 0 ∧
    (agent_move 10 0 - opponent_take (agent_move 10 0) 1 ≠ 0 →
      step 10 0 1 =
        { observation := agent_move 10 0 - opponent_take (agent_move 10 0) 1,
          reward := 0, terminated := false,
          stones_remaining :=
            agent_move 10 0 - opponent_take (agent_move 10 0) 1 }) :=
  ⟨by decide, by decide,
    (claim4_opponent_outcome 10 0 1 (by decide) (by decide)).2⟩

/-- C5: with positive duration and start at least end, the schedule equals
`max(end, start + (end - start)/duration * step)`, is non-increasing in the
step, stays in the band between end and start, and sits at end from the
duration onwards. -/
theorem claim5_linear_schedule (se ee d : ℚ) (hd : 0 < d) (hse : ee ≤ se) :
    (∀ n : ℕ, linear_schedule se ee d n = max ee (se + (ee - se) / d * n)) ∧
    (∀ m n : ℕ, m ≤ n → linear_schedule se ee d n ≤ linear_schedule se ee d m) ∧
    (∀ n : ℕ, ee ≤ linear_schedule se ee d n) ∧
    (∀ n : ℕ, linear_schedule se ee d n ≤ se) ∧
    (∀ n : ℕ, d ≤ (n : ℚ) → linear_schedule se ee d n = ee) := by
  have hslope : (ee - se) / d ≤ 0 :=
    div_nonpos_iff.mpr (Or.inr ⟨by linarith, le_of_lt hd⟩)
  refine ⟨fun n => rfl, ?_, ?_, ?_, ?_⟩
  · intro m n hmn
    have hc : (m : ℚ) ≤ (n : ℚ) := by exact_mod_cast hmn
    have := mul_le_mul_of_nonpos_left hc hslope
    exact max_le_max le_rfl (by linarith)
  · intro n
    exact le_max_left _ _
  · intro n
    have hn : (0 : ℚ) ≤ (n : ℚ) := Nat.cast_nonneg n
    have := mul_nonpos_of_nonpos_of_nonneg hslope hn
    exact max_le hse (by linarith)
  · intro n hdn
    have h1 : (ee - se) / d * n ≤ (ee - se) / d * d :=
      mul_le_mul_of_nonpos_left hdn hslope
    have h2 : (ee - se) / d * d = ee - se := div_mul_cancel₀ _ (ne_of_gt hd)
    exact max_eq_left (by linarith)

/-- C5 witness: start 1, end 0, duration 2, evaluated at step 5. -/
theorem claim5_witness :
    (0 : ℚ) < 2 ∧ (0 : ℚ) ≤ 1 ∧ linear_schedule 1 0 2 5 = 0 :=
  ⟨by norm_num, by norm_num,
    (claim5_linear_schedule 1 0 2 (by norm_num) (by norm_num)).2.2.2.2 5
      (by norm_num)⟩

/-- C9: `reset` succeeds from every state (mid-episode included), sets
`stones_remaining` to 21 and returns 21 as the observation, and repeating it
with no intervening step yields the same state and observation. -/
theorem claim9_reset (s : ℤ) :
    reset s = (21, 21) ∧ (reset s).2 = 21 ∧ reset (reset s).1 = reset s := by
  simp [reset, initial_stones]

/-- C8: for every positive pile `s`, loaded Q-table `q` and fallback draw
`r` in {1, 2, 3}: the legal actions of `handle_ai_move` are exactly those
with `a + 1 ≤ s` inside the action space; with a table the move is the
first-max argmax over the legal actions (its value is maximal, every legal
action before it has strictly smaller value) and the take never exceeds
`s`; without a table the move is `s mod 4` stones, or the random draw when
`s mod 4 = 0`, clamped to `s`. -/
theorem claim8_ai_move (q : QTable) (s r : ℤ)
    (hs : 1 ≤ s) (hr1 : 1 ≤ r) (hr3 : r ≤ 3) :
    (∀ b : ℕ, b ∈ valid_actions s ↔ b < 3 ∧ (b : ℤ) + 1 ≤ s) ∧
    (∃ a, a ∈ valid_actions s ∧
      handle_ai_move_take (some q) s r = some ((a : ℤ) + 1) ∧
      (a : ℤ) + 1 ≤ s ∧
      (∀ b ∈ valid_actions s, q s b ≤ q s a) ∧
      (∀ b ∈ valid_actions s, b < a → q s b < q s a)) ∧
    (s % 4 ≠ 0 → handle_ai_move_take none s r = some (s % 4)) ∧
    (s % 4 = 0 → handle_ai_move_take none s r = some r) := by
  have hva : valid_actions s = List.range (min 3 s.toNat) :=
    valid_actions_eq_range s
  refine ⟨?_, ?_, ?_, ?_⟩
  · intro b
    simp [valid_actions, List.mem_filter, List.mem_range]
  · set m := min 3 s.toNat with hm
    have hmpos : 0 < m := by omega
    set qv := (List.range m).map (q s) with hqv
    have hqvlen : qv.length = m := by simp [hqv]
    have hqvne : qv ≠ [] := by
      intro hnil
      rw [hnil] at hqvlen
      simp at hqvlen
      omega
    set idx := argmax_first qv with hidxdef
    have hidx : idx < m := by
      have := argmax_first_lt_length qv hqvne
      omega
    have hqvget : ∀ j, j < m → qv.getD j 0 = q s j := by
      intro j hj
      rw [hqv, getD_eq_get _ _ _ (by simpa using hj)]
      simp
    have hgetidx : (List.range m).getD idx 0 = idx := by
      rw [getD_eq_get _ _ _ (by simpa using hidx)]
      simp
    have hne2 : ¬ valid_actions s = [] := by
      rw [hva]
      simp only [ne_eq, List.range_eq_nil]
      omega
    refine ⟨idx, ?_, ?_, by omega, ?_, ?_⟩
    · rw [hva]
      exact List.mem_range.mpr hidx
    · simp only [handle_ai_move_take]
      rw [if_neg hne2, hva, ← hqv, ← hidxdef, hgetidx,
        min_eq_left (by omega : (idx : ℤ) + 1 ≤ s)]
    · intro b hb
      rw [hva, List.mem_range] at hb
      have h1 := getD_le_argmax_first qv b (by omega)
      rw [hqvget b hb, ← hidxdef, hqvget idx hidx] at h1
      exact h1
    · intro b hb hblt
      have h1 := getD_lt_argmax_first qv b (by omega)
      rw [hqvget b (by omega), ← hidxdef, hqvget idx hidx] at h1
      exact h1
  · intro hmod
    simp only [handle_ai_move_take]
    rw [if_neg hmod, min_eq_left (by omega : s % 4 ≤ s)]
  · intro hmod
    simp only [handle_ai_move_take]
    rw [if_pos hmod, min_eq_left (by omega : r ≤ s)]

/-- C8 witness: the zero table, 5 stones, fallback draw 2. -/
theorem claim8_witness :
    ((1 : ℤ) ≤ 5 ∧ (1 : ℤ) ≤ 2 ∧ (2 : ℤ) ≤ 3) ∧
    ((∀ b : ℕ, b ∈ valid_actions 5 ↔ b < 3 ∧ (b : ℤ) + 1 ≤ 5) ∧
     (∃ a, a ∈ valid_actions 5 ∧
       handle_ai_move_take (some q_init) 5 2 = some ((a : ℤ) + 1) ∧
       (a : ℤ) + 1 ≤ 5 ∧
       (∀ b ∈ valid_actions 5, q_init 5 b ≤ q_init 5 a) ∧
       (∀ b ∈ valid_actions 5, b < a → q_init 5 b < q_init 5 a)) ∧
     ((5 : ℤ) % 4 ≠ 0 → handle_ai_move_take none 5 2 = some (5 % 4)) ∧
     ((5 : ℤ) % 4 = 0 → handle_ai_move_take none 5 2 = some 2)) :=
  ⟨⟨by decide, by decide, by decide⟩,
    claim8_ai_move q_init 5 2 (by decide) (by decide) (by decide)⟩

/-- C10: for every state in [0, 21], action of the space Discrete(3) and
opponent draw in {1, 2, 3}, the step result satisfies: the observation is
the post-step `stones_remaining`, it lies in [0, 21], termination holds
exactly when the observation is 0, and the reward is one of -10, -1, 0, 1. -/
theorem claim10_step_invariants (s : ℤ) (a : ℕ) (r : ℤ)
    (hs0 : 0 ≤ s) (hs21 : s ≤ 21) (ha : a < 3) (hr1 : 1 ≤ r) (hr3 : r ≤ 3) :
    (step s a r).observation = (step s a r).stones_remaining ∧
    0 ≤ (step s a r).observation ∧ (step s a r).observation ≤ 21 ∧
    ((step s a r).terminated = true ↔ (step s a r).observation = 0) ∧
    ((step s a r).reward = -10 ∨ (step s a r).reward = -1 ∨
      (step s a r).reward = 0 ∨ (step s a r).reward = 1) := by
  simp only [step, agent_move, opponent_take]
  split_ifs with h1 h2 h3 h4 <;> simp <;> omega

/-- C10 witness: the full pile, take 1, opponent draw 1. -/
theorem claim10_witness :
    ((0 : ℤ) ≤ 21 ∧ (21 : ℤ) ≤ 21 ∧ 0 < 3 ∧ (1 : ℤ) ≤ 1 ∧ (1 : ℤ) ≤ 3) ∧
    ((step 21 0 1).observation = (step 21 0 1).stones_remaining ∧
     0 ≤ (step 21 0 1).observation ∧ (step 21 0 1).observation ≤ 21 ∧
     ((step 21 0 1).terminated = true ↔ (step 21 0 1).observation = 0) ∧
     ((step 21 0 1).reward = -10 ∨ (step 21 0 1).reward = -1 ∨
       (step 21 0 1).reward = 0 ∨ (step 21 0 1).reward = 1)) :=
  ⟨⟨by decide, by decide, by decide, by decide, by decide⟩,
    claim10_step_invariants 21 0 1 (by decide) (by decide) (by decide)
      (by decide) (by decide)⟩

/-- C7 counterexample: a configuration that is invalid on every count the
claim lists (total_episodes = 0, exploration_fraction = 0, learning rate 2
and gamma 2 out of range) is not rejected: train.py has no validation, the
loop `for episode in range(0)` runs zero iterations, and the run completes
normally, returning the untouched zero table instead of failing fast. -/
theorem claim7_counterexample :
    train_main
      { total_episodes := 0, learning_rate := 2, gamma := 2,
        start_epsilon := 1, end_epsilon := 0, exploration_fraction := 0 }
      (fun _ _ => { u := 0, sample := 0, opp := 1 }) = Except.ok q_init := rfl

/-- C7 amended: the trainer performs no configuration validation; in
particular for every configuration with `total_episodes ≤ 0` the training
loop body never executes and the run completes normally with the
zero-filled table, whatever the other (possibly out-of-range) values are. -/
theorem claim7_no_validation (args : Args) (rng : ℕ → ℕ → RandDraw)
    (h : args.total_episodes ≤ 0) :
    train_main args rng = Except.ok q_init := by
  have h0 : args.total_episodes.toNat = 0 := Int.toNat_of_nonpos h
  simp [train_main, train_q_table, h0]

/-- C7 witness for the amended claim: total_episodes = -5. -/
theorem claim7_witness :
    ((-5 : ℤ) ≤ 0) ∧
    train_main
      { total_episodes := -5, learning_rate := 1, gamma := 1,
        start_epsilon := 1, end_epsilon := 0, exploration_fraction := 1 }
      (fun _ _ => { u := 0, sample := 0, opp := 1 }) = Except.ok q_init :=
  ⟨by decide,
    claim7_no_validation
      { total_episodes := -5, learning_rate := 1, gamma := 1,
        start_epsilon := 1, end_epsilon := 0, exploration_fraction := 1 }
      (fun _ _ => { u := 0, sample := 0, opp := 1 }) (by decide)⟩

end StoneGame
